import Mathlib

/-!
Verification of the environment configuration and credential-broker subsystem
of the mcp-databricks-server repository.

The Python sources are shallowly embedded:
* `models/environment.py` → `EnvironmentConfig`, `EnvironmentsConfiguration`,
  `ActiveEnvironment` together with the pydantic validation pipeline
  (`mkEnvironmentConfig`, `mkEnvironmentsConfiguration`).
* `config/loader.py` → `load_from_yaml`, `load_from_env`,
  `auto_load_configuration`.  The file system is passed explicitly
  (`Option` = "the file exists and parses to this data"), and the process
  environment of `load_dotenv`/`os.getenv` is an association list.
* `config/manager.py` → `ManagerState` with `switch_to_environment`,
  `get_active_credentials`, `get_active_environment_name`,
  `list_all_environments`, `reload_configuration`.  Python exceptions are
  `Except`; methods that mutate only on the non-raising path return the
  unchanged state together with the error.
-/

namespace MCPDatabricks

/-! ## String helpers shared by the embedding -/

/-- One character of the regex class `[a-zA-Z0-9_-]`. -/
def isIdentChar (c : Char) : Bool :=
  c.isAlpha || c.isDigit || c = '_' || c = '-'

/-- Python `', '.join(l)`. -/
def joinComma : List String → String
  | [] => ""
  | [x] => x
  | x :: y :: ys => x ++ ", " ++ joinComma (y :: ys)

/-- Python truthiness of an `Optional[str]`: present and non-empty. -/
def optTruthy : Option String → Bool
  | none => false
  | some v => v ≠ ""

/-- Python `x or dflt` for an `Optional[str] `x`. -/
def pyOr (o : Option String) (dflt : String) : String :=
  match o with
  | none => dflt
  | some v => if v = "" then dflt else v

/-- `needle` occurs as a contiguous substring of `hay` (on the character lists). -/
def strContains (needle hay : String) : Prop :=
  ∃ u v, u ++ needle.data ++ v = hay.data

/-! ## `models/environment.py`: EnvironmentConfig -/

/-- `EnvironmentConfig` (models/environment.py).  A value of this type is a
successfully validated pydantic model instance. -/
structure EnvironmentConfig where
  name : String
  host : String
  token : Option String
  profile : Option String
  http_path : String
  description : Option String
  tags : List String
deriving Repr, DecidableEq

/-- `Field(..., min_length=1, max_length=50)` on `name`. -/
def nameFieldOk (v : String) : Bool := 1 ≤ v.length && v.length ≤ 50

/-- `validate_name`: regex `^[a-zA-Z0-9_-]+$`. -/
def identCharsetOk (v : String) : Bool := !v.data.isEmpty && v.data.all isIdentChar

/-- `validate_host`: rejects a protocol prefix (plus `min_length=1`). -/
def hostOk (v : String) : Bool :=
  1 ≤ v.length && !("http://".data.isPrefixOf v.data) && !("https://".data.isPrefixOf v.data)

/-- `token` field constraint plus `validate_token`: optional, non-empty,
starts with `dapi`. -/
def tokenOk : Option String → Bool
  | none => true
  | some v => 1 ≤ v.length && "dapi".data.isPrefixOf v.data

/-- `profile` field constraint plus `validate_profile`. -/
def profileOk : Option String → Bool
  | none => true
  | some v => 1 ≤ v.length && v.length ≤ 100 && identCharsetOk v

/-- `http_path` pattern `^/sql/1\.0/warehouses/.+$` (the literal prefix has
20 characters; `.` does not match a newline). -/
def httpPathOk (v : String) : Bool :=
  "/sql/1.0/warehouses/".data.isPrefixOf v.data && 20 < v.length &&
  (v.data.drop 20).all (· ≠ '\n')

/-- `description` field constraint: optional, `max_length=200`. -/
def descriptionOk : Option String → Bool
  | none => true
  | some v => v.length ≤ 200

/-- `validate_tags`: each tag ≤ 30 chars, regex `^[a-zA-Z0-9_-]+$`. -/
def tagsOk (l : List String) : Bool :=
  l.all (fun t => t.length ≤ 30 && identCharsetOk t)

/-- Pydantic construction of `EnvironmentConfig`: field validators (in field
order), then the `validate_auth_method` model validator.  `tags = none`
models passing no tags / `None`, which the validator turns into `[]`. -/
def mkEnvironmentConfig (name host : String) (token profile : Option String)
    (http_path : String) (description : Option String)
    (tags : Option (List String)) : Except String EnvironmentConfig :=
  if !nameFieldOk name then
    .error "name: length out of bounds"
  else if !identCharsetOk name then
    .error "Name must contain only alphanumeric characters, hyphens, and underscores"
  else if !hostOk host then
    .error "Host should not include protocol (http:// or https://)"
  else if !tokenOk token then
    .error "Token should start with \"dapi\""
  else if !profileOk profile then
    .error "Profile name must contain only alphanumeric characters, hyphens, and underscores"
  else if !httpPathOk http_path then
    .error "http_path: pattern mismatch"
  else if !descriptionOk description then
    .error "description: length out of bounds"
  else if !tagsOk (tags.getD []) then
    .error "tag invalid"
  else if token.isNone && profile.isNone then
    .error ("Environment '" ++ name ++ "': Either 'token' or 'profile' must be specified")
  else if token.isSome && profile.isSome then
    .error ("Environment '" ++ name ++ "': Cannot specify both 'token' and 'profile'. Choose one authentication method.")
  else
    .ok { name := name, host := host, token := token, profile := profile,
          http_path := http_path, description := description,
          tags := tags.getD [] }

/-! ## `models/environment.py`: EnvironmentsConfiguration -/

/-- `EnvironmentsConfiguration`.  The Python `Dict[str, EnvironmentConfig]`
is an insertion-ordered map with unique keys; it is embedded as an
association list. -/
structure EnvironmentsConfiguration where
  default : String
  environments : List (String × EnvironmentConfig)
deriving Repr, DecidableEq

/-- Pydantic construction of `EnvironmentsConfiguration`: `default` must be a
string (`none` models passing `None`), `environments` must be non-empty
(`min_items=1`), every key must equal its value's `name`
(`validate_environment_names_match_keys`), and `default` must be a key
(`validate_default_exists`). -/
def mkEnvironmentsConfiguration (dflt : Option String)
    (envs : List (String × EnvironmentConfig)) :
    Except String EnvironmentsConfiguration :=
  match dflt with
  | none => .error "default: input should be a valid string"
  | some d =>
    if envs.isEmpty then
      .error "environments: too few items"
    else if envs.any (fun p => p.2.name ≠ p.1) then
      .error "Environment key does not match environment name"
    else if (envs.lookup d).isNone then
      .error ("Default environment \"" ++ d ++ "\" not found. Available environments: "
              ++ joinComma (envs.map Prod.fst))
    else
      .ok { default := d, environments := envs }

/-- `EnvironmentsConfiguration.get_environment`. -/
def EnvironmentsConfiguration.get_environment (c : EnvironmentsConfiguration)
    (name : String) : Option EnvironmentConfig :=
  c.environments.lookup name

/-- `EnvironmentsConfiguration.list_environment_names`. -/
def EnvironmentsConfiguration.list_environment_names
    (c : EnvironmentsConfiguration) : List String :=
  c.environments.map Prod.fst

/-! ## `models/environment.py`: ActiveEnvironment and the credential broker -/

/-- `ActiveEnvironment`.  `activated_at` is an abstract timestamp. -/
structure ActiveEnvironment where
  name : String
  config : EnvironmentConfig
  activated_at : Nat
deriving Repr, DecidableEq

/-- The shape returned by `ActiveEnvironment.get_credentials`: the dict with
keys `host`, `http_path` and at most one of `token`/`profile`. -/
structure CredentialSet where
  host : String
  http_path : String
  token : Option String
  profile : Option String
deriving Repr, DecidableEq

/-- `ActiveEnvironment.get_credentials`: `host` and `http_path` always; then
`if self.config.token: ... elif self.config.profile: ...` with Python
truthiness. -/
def ActiveEnvironment.get_credentials (a : ActiveEnvironment) : CredentialSet :=
  if optTruthy a.config.token then
    { host := a.config.host, http_path := a.config.http_path,
      token := a.config.token, profile := none }
  else if optTruthy a.config.profile then
    { host := a.config.host, http_path := a.config.http_path,
      token := none, profile := a.config.profile }
  else
    { host := a.config.host, http_path := a.config.http_path,
      token := none, profile := none }

/-! ## `config/loader.py` -/

/-- Raw per-environment data from the YAML mapping, before pydantic
construction.  Every field is optional in the raw data. -/
structure EnvData where
  name : Option String
  host : Option String
  token : Option String
  profile : Option String
  http_path : Option String
  description : Option String
  tags : Option (List String)
deriving Repr, DecidableEq

/-- The parsed YAML document: optional top-level `default` scalar and
`environments` mapping (`data.get('environments', {})` when absent). -/
structure YamlData where
  default : Option String
  environments : Option (List (String × EnvData))
deriving Repr, DecidableEq

/-- `EnvironmentConfig(**env_data)`: required fields `host` and `http_path`
(and the injected `name`) must be present, otherwise pydantic raises a
missing-field validation error; then the validators of
`mkEnvironmentConfig` run. -/
def mkEnvironmentConfigOfData (d : EnvData) : Except String EnvironmentConfig :=
  match d.name, d.host, d.http_path with
  | some n, some h, some p =>
    mkEnvironmentConfig n h d.token d.profile p d.description d.tags
  | _, _, _ => .error "field required"

/-- The loop in `load_from_yaml`: for each `(name, env_data)` pair inject
`env_data['name'] = name` and construct the model. -/
def buildEnvConfigs : List (String × EnvData) →
    Except String (List (String × EnvironmentConfig))
  | [] => .ok []
  | (k, d) :: rest => do
    let c ← mkEnvironmentConfigOfData { d with name := some k }
    let cs ← buildEnvConfigs rest
    pure ((k, c) :: cs)

/-- `load_from_yaml` on an existing file.  `none` models a file whose YAML
parse is empty/`None` (`if not data: raise ValueError`). -/
def load_from_yaml (data : Option YamlData) :
    Except String EnvironmentsConfiguration :=
  match data with
  | none => .error "Configuration file is empty"
  | some y => do
    let cs ← buildEnvConfigs (y.environments.getD [])
    mkEnvironmentsConfiguration y.default cs

/-- `os.getenv` after `load_dotenv(env_file)`: `load_dotenv` does not
override variables already present in the process environment, so the
ambient value wins and the file value is used only for keys the ambient
environment lacks. -/
def getenvAfterDotenv (ambient fileVars : List (String × String))
    (k : String) : Option String :=
  match ambient.lookup k with
  | some v => some v
  | none => fileVars.lookup k

/-- The list of required legacy variables reported missing by
`load_from_env`: exactly those that are absent or empty (Python
falsiness), in the fixed order HOST, TOKEN, HTTP_PATH. -/
def legacyMissingVars (fileVars ambient : List (String × String)) : List String :=
  (if !optTruthy (getenvAfterDotenv ambient fileVars "DATABRICKS_HOST")
   then ["DATABRICKS_HOST"] else []) ++
  (if !optTruthy (getenvAfterDotenv ambient fileVars "DATABRICKS_TOKEN")
   then ["DATABRICKS_TOKEN"] else []) ++
  (if !optTruthy (getenvAfterDotenv ambient fileVars "DATABRICKS_HTTP_PATH")
   then ["DATABRICKS_HTTP_PATH"] else [])

/-- `load_from_env` on an existing file: merge the file into the process
environment without override, read the three required variables, report
all missing ones at once, and otherwise synthesize the single
`"default"` environment. -/
def load_from_env (env_file : String)
    (fileVars ambient : List (String × String)) :
    Except String EnvironmentsConfiguration :=
  let host := getenvAfterDotenv ambient fileVars "DATABRICKS_HOST"
  let token := getenvAfterDotenv ambient fileVars "DATABRICKS_TOKEN"
  let http_path := getenvAfterDotenv ambient fileVars "DATABRICKS_HTTP_PATH"
  if !(optTruthy host && optTruthy token && optTruthy http_path) then
    .error ("Missing required environment variables in " ++ env_file ++ ": "
            ++ joinComma (legacyMissingVars fileVars ambient))
  else do
    let env ← mkEnvironmentConfig "default" (host.getD "") (some (token.getD ""))
      none (http_path.getD "") (some ("Migrated from " ++ env_file)) none
    mkEnvironmentsConfiguration (some "default") [("default", env)]

/-- `auto_load_configuration`: structured YAML wins when its file exists
(the legacy file then only triggers a warning and is otherwise unused),
else fall back to the legacy file, else fail with a message enumerating
both candidate paths.  `yamlSrc = some d` models `os.path.exists(yaml_file)`
with parse result `d`; `envSrc = some vars` models an existing legacy file.
The trailing DEBUG line of the real message (the process working
directory) is outside the embedding. -/
def auto_load_configuration (yaml_file env_file : String)
    (yamlSrc : Option (Option YamlData))
    (envSrc : Option (List (String × String)))
    (ambient : List (String × String)) :
    Except String EnvironmentsConfiguration :=
  match yamlSrc with
  | some d => load_from_yaml d
  | none =>
    match envSrc with
    | some fileVars => load_from_env env_file fileVars ambient
    | none =>
      .error ("No configuration file found. Please create either:\n  - "
              ++ yaml_file ++ " (recommended for multiple environments)\n  - "
              ++ env_file ++ " (legacy single environment)\nSee environments.yaml.template for an example.")

/-! ## `config/manager.py` -/

/-- The mutable state of the `EnvironmentManager` singleton: the loaded
configuration and the active environment, both absent before the first
successful load. -/
structure ManagerState where
  configuration : Option EnvironmentsConfiguration
  active : Option ActiveEnvironment
deriving Repr, DecidableEq

/-- The success message returned by `switch_to_environment`. -/
def switchSuccessMessage (name : String) (env : EnvironmentConfig) : String :=
  "✓ Switched to environment: " ++ name ++
  "\nHost: " ++ env.host ++
  "\nDescription: " ++ pyOr env.description "N/A" ++
  "\nTags: " ++ (if env.tags.isEmpty then "N/A" else joinComma env.tags)

/-- `EnvironmentManager.switch_to_environment`.  On the raising paths the
instance is not mutated, so the input state is returned with the error. -/
def switch_to_environment (s : ManagerState) (name : String) (now : Nat) :
    ManagerState × Except String String :=
  match s.configuration with
  | none =>
    (s, .error "Configuration not loaded. Call load_configuration() first.")
  | some cfg =>
    match cfg.environments.lookup name with
    | none =>
      (s, .error ("Environment '" ++ name ++ "' not found. Available environments: "
                  ++ joinComma (cfg.environments.map Prod.fst)))
    | some env =>
      ({ s with active := some { name := name, config := env, activated_at := now } },
       .ok (switchSuccessMessage name env))

/-- `EnvironmentManager.get_active_credentials`: raises when no environment
is active, otherwise returns the broker's credential set. -/
def get_active_credentials (s : ManagerState) : Except String CredentialSet :=
  match s.active with
  | none =>
    .error "No active environment set. Call set_active_to_default() or switch_to_environment() first."
  | some a => .ok a.get_credentials

/-- `EnvironmentManager.get_active_environment_name`: returns `None` (not an
error) when no environment is active. -/
def get_active_environment_name (s : ManagerState) : Option String :=
  match s.active with
  | none => none
  | some a => some a.name

/-- `EnvironmentManager.list_all_environments`: raises when no configuration
is loaded. -/
def list_all_environments (s : ManagerState) :
    Except String (List (String × EnvironmentConfig)) :=
  match s.configuration with
  | none => .error "Configuration not loaded."
  | some cfg => .ok cfg.environments

/-- `EnvironmentManager.reload_configuration`.  The resolver's outcome is the
`res` argument.  Every exception is caught and absorbed, so the function
is total.  On resolver failure nothing was assigned yet and the state is
untouched.  On success the configuration is replaced; if the previously
active name survives, the active environment is re-pointed to the new
entry with a fresh timestamp; if it is gone, `set_active_to_default()`
activates the new default (its `KeyError` path, unreachable for validated
configurations, would leave the old active environment in place). -/
def reload_configuration (s : ManagerState)
    (res : Except String EnvironmentsConfiguration) (now : Nat) : ManagerState :=
  match res with
  | .error _ => s
  | .ok cfg =>
    match s.active with
    | none => { configuration := some cfg, active := none }
    | some a =>
      match cfg.environments.lookup a.name with
      | some c =>
        { configuration := some cfg,
          active := some { name := a.name, config := c, activated_at := now } }
      | none =>
        match cfg.environments.lookup cfg.default with
        | some dc =>
          { configuration := some cfg,
            active := some { name := cfg.default, config := dc, activated_at := now } }
        | none => { configuration := some cfg, active := some a }

/-! ## Helper lemmas about string containment and `joinComma` -/

theorem str_data_append (a b : String) : (a ++ b).data = a.data ++ b.data := rfl

theorem strContains_last (a n : String) : strContains n (a ++ n) :=
  ⟨a.data, [], by simp [str_data_append]⟩

theorem strContains_refl (n : String) : strContains n n :=
  ⟨[], [], by simp⟩

theorem strContains_skip (a : String) {n b : String} (h : strContains n b) :
    strContains n (a ++ b) := by
  obtain ⟨u, v, huv⟩ := h
  exact ⟨a.data ++ u, v, by simp [str_data_append, ← huv]⟩

theorem strContains_extend {n a : String} (h : strContains n a) (b : String) :
    strContains n (a ++ b) := by
  obtain ⟨u, v, huv⟩ := h
  exact ⟨u, v ++ b.data, by simp [str_data_append, ← huv]⟩

/-- Every element of `l` occurs as a substring of `', '.join(l)`. -/
theorem strContains_joinComma : ∀ {l : List String} {x : String},
    x ∈ l → strContains x (joinComma l)
  | [], _, hx => absurd hx (List.not_mem_nil _)
  | [a], x, hx => by
    cases hx with
    | head => exact strContains_refl a
    | tail _ h => cases h
  | a :: b :: bs, x, hx => by
    cases hx with
    | head =>
      simp only [joinComma]
      exact strContains_extend (strContains_extend (strContains_refl a) ", ") _
    | tail _ h =>
      simp only [joinComma]
      exact strContains_skip (a ++ ", ") (strContains_joinComma h)

/-! ## Inversion lemmas for the validation pipeline -/

set_option maxHeartbeats 1600000 in
/-- Successful pydantic construction of `EnvironmentConfig` pins down the
result and means every validator accepted its field. -/
theorem mkEnvironmentConfig_ok_inv {name host : String} {token profile : Option String}
    {http_path : String} {description : Option String} {tags : Option (List String)}
    {c : EnvironmentConfig}
    (h : mkEnvironmentConfig name host token profile http_path description tags = .ok c) :
    c = { name := name, host := host, token := token, profile := profile,
          http_path := http_path, description := description, tags := tags.getD [] } ∧
    nameFieldOk name ∧ identCharsetOk name ∧ hostOk host ∧ tokenOk token ∧
    profileOk profile ∧ httpPathOk http_path ∧ descriptionOk description ∧
    tagsOk (tags.getD []) ∧
    ¬(token.isNone ∧ profile.isNone) ∧ ¬(token.isSome ∧ profile.isSome) := by
  unfold mkEnvironmentConfig at h
  split_ifs at h with h1 h2 h3 h4 h5 h6 h7 h8 h9 h10
  injection h with hc
  subst hc
  exact ⟨rfl, by simpa using h1, by simpa using h2, by simpa using h3,
         by simpa using h4, by simpa using h5, by simpa using h6,
         by simpa using h7, by simpa using h8, by simpa using h9,
         by simpa using h10⟩

/-- Successful pydantic construction of `EnvironmentsConfiguration` pins down
the result and its invariants. -/
theorem mkEnvironmentsConfiguration_ok_inv {dflt : Option String}
    {envs : List (String × EnvironmentConfig)} {cfg : EnvironmentsConfiguration}
    (h : mkEnvironmentsConfiguration dflt envs = .ok cfg) :
    dflt = some cfg.default ∧ cfg.environments = envs ∧
    (envs.lookup cfg.default).isSome ∧ (∀ p ∈ envs, p.2.name = p.1) ∧ envs ≠ [] := by
  cases dflt with
  | none => exact Except.noConfusion h
  | some d =>
    simp only [mkEnvironmentsConfiguration] at h
    split_ifs at h with h1 h2 h3
    injection h with hc
    subst hc
    refine ⟨rfl, rfl, ?_, ?_, ?_⟩
    · cases hl : envs.lookup d with
      | none => rw [hl] at h3; simp at h3
      | some x => simp
    · intro p hp
      by_contra hne
      exact h2 (List.any_eq_true.2 ⟨p, hp, by simpa using hne⟩)
    · intro hnil
      subst hnil
      simp at h1

/-! ## Claim theorems -/

/-- C2: if the resolver fails during `reload_configuration`, the manager state
is exactly what it was before the call — in particular `list_all_environments`
and `get_active_environment_name` observe no change — and the reload itself
propagates no error (the embedding of `reload_configuration` is a total
function into `ManagerState`, mirroring the catch-all `except` that absorbs
every exception). -/
theorem reload_failure_preserves_state (s : ManagerState) (err : String) (now : Nat) :
    reload_configuration s (.error err) now = s ∧
    list_all_environments (reload_configuration s (.error err) now)
      = list_all_environments s ∧
    get_active_environment_name (reload_configuration s (.error err) now)
      = get_active_environment_name s :=
  ⟨rfl, rfl, rfl⟩

/-- C4 counterexample: in the uninitialized state,
`get_active_environment_name` returns the absent value `none` (Python
`None`) rather than failing with an error, so the claim that *every* read
operation fails explicitly before the first load is false. -/
theorem uninitialized_get_active_name_counterexample :
    get_active_environment_name { configuration := none, active := none } = none :=
  rfl

/-- C4 (amended): in the uninitialized state `get_active_credentials` and
`list_all_environments` fail explicitly with errors, while
`get_active_environment_name` returns the absent value `none` instead of
failing. -/
theorem uninitialized_reads_amended :
    (∃ e, get_active_credentials { configuration := none, active := none } = .error e) ∧
    (∃ e, list_all_environments { configuration := none, active := none } = .error e) ∧
    get_active_environment_name { configuration := none, active := none } = none :=
  ⟨⟨_, rfl⟩, ⟨_, rfl⟩, rfl⟩

/-- C7: source-selection precedence of `auto_load_configuration`.  When the
structured YAML source exists its parse alone determines the result, whatever
the legacy source holds (the legacy file only triggers a warning); when only
the legacy source exists it is used; when neither exists resolution fails
with a message that names both candidate paths. -/
theorem auto_load_source_precedence (yaml_file env_file : String)
    (ambient : List (String × String)) :
    (∀ d envSrc, auto_load_configuration yaml_file env_file (some d) envSrc ambient
        = load_from_yaml d) ∧
    (∀ fileVars, auto_load_configuration yaml_file env_file none (some fileVars) ambient
        = load_from_env env_file fileVars ambient) ∧
    (∃ msg, auto_load_configuration yaml_file env_file none none ambient = .error msg ∧
        strContains yaml_file msg ∧ strContains env_file msg) := by
  refine ⟨fun d envSrc => rfl, fun fileVars => rfl, _, rfl, ?_, ?_⟩
  · exact strContains_extend (strContains_extend (strContains_extend
      (strContains_last "No configuration file found. Please create either:\n  - " yaml_file) _) _) _
  · exact strContains_extend
      (strContains_last ("No configuration file found. Please create either:\n  - "
        ++ yaml_file ++ " (recommended for multiple environments)\n  - ") env_file) _

/-- An `EnvironmentConfig` value that can actually exist at runtime: it was
produced by a successful pydantic construction. -/
def EnvironmentConfig.validated (c : EnvironmentConfig) : Prop :=
  ∃ name host token profile http_path description tags,
    mkEnvironmentConfig name host token profile http_path description tags = .ok c

/-- C5: `EnvironmentConfig` construction enforces the exactly-one-auth-method
invariant — a successful construction carries exactly one of `token`/`profile`,
and inputs with neither or with both auth fields are rejected. -/
theorem envconfig_exactly_one_auth (name host : String) (token profile : Option String)
    (http_path : String) (description : Option String) (tags : Option (List String)) :
    (∀ c, mkEnvironmentConfig name host token profile http_path description tags = .ok c →
      ((c.token.isSome ∧ c.profile = none) ∨ (c.token = none ∧ c.profile.isSome))) ∧
    (token = none → profile = none →
      ∃ e, mkEnvironmentConfig name host token profile http_path description tags = .error e) ∧
    (∀ t p, token = some t → profile = some p →
      ∃ e, mkEnvironmentConfig name host token profile http_path description tags = .error e) := by
  refine ⟨?_, ?_, ?_⟩
  · intro c hc
    obtain ⟨hcs, -, -, -, -, -, -, -, -, h9, h10⟩ := mkEnvironmentConfig_ok_inv hc
    subst hcs
    cases token <;> cases profile <;> simp_all
  · intro ht hp
    subst ht; subst hp
    cases hmk : mkEnvironmentConfig name host none none http_path description tags with
    | error e => exact ⟨e, rfl⟩
    | ok c =>
      obtain ⟨-, -, -, -, -, -, -, -, -, h9, -⟩ := mkEnvironmentConfig_ok_inv hmk
      simp at h9
  · intro t p ht hp
    subst ht; subst hp
    cases hmk : mkEnvironmentConfig name host (some t) (some p) http_path description tags with
    | error e => exact ⟨e, rfl⟩
    | ok c =>
      obtain ⟨-, -, -, -, -, -, -, -, -, -, h10⟩ := mkEnvironmentConfig_ok_inv hmk
      simp at h10

/-- C5 witness: constructing with neither auth field is rejected. -/
theorem envconfig_exactly_one_auth_witness :
    ∃ e, mkEnvironmentConfig "dev" "example.com" none none
      "/sql/1.0/warehouses/abc" none none = .error e :=
  (envconfig_exactly_one_auth "dev" "example.com" none none
    "/sql/1.0/warehouses/abc" none none).2.1 rfl rfl

/-- C6: the credential broker is a pure function of the validated config: it
passes `host` and `http_path` through unchanged and carries exactly one auth
field — the token when the config has a token, the profile when it has a
profile — and the manager's accessor returns exactly this set for the active
environment.  (Purity and non-mutation hold by construction: the embedding is
a function `ActiveEnvironment → CredentialSet` with no state.) -/
theorem credential_broker_spec (a : ActiveEnvironment) (s : ManagerState)
    (hv : a.config.validated) (hs : s.active = some a) :
    a.get_credentials.host = a.config.host ∧
    a.get_credentials.http_path = a.config.http_path ∧
    (∀ t, a.config.token = some t →
      a.get_credentials = { host := a.config.host, http_path := a.config.http_path,
                            token := some t, profile := none }) ∧
    (∀ p, a.config.profile = some p →
      a.get_credentials = { host := a.config.host, http_path := a.config.http_path,
                            token := none, profile := some p }) ∧
    get_active_credentials s = .ok a.get_credentials := by
  obtain ⟨n, h0, tk, pr, hp, ds, tg, hmk⟩ := hv
  obtain ⟨hcs, -, -, -, h4, h5, -, -, -, -, h10⟩ := mkEnvironmentConfig_ok_inv hmk
  refine ⟨?_, ?_, ?_, ?_, ?_⟩
  · unfold ActiveEnvironment.get_credentials; split_ifs <;> rfl
  · unfold ActiveEnvironment.get_credentials; split_ifs <;> rfl
  · intro t ht
    have htk : tk = some t := by rw [hcs] at ht; exact ht
    subst htk
    have hne : t ≠ "" := by
      intro hteq; subst hteq; simp [tokenOk] at h4
    unfold ActiveEnvironment.get_credentials
    rw [ht]
    simp [optTruthy, hne]
  · intro p hp2
    have hpr : pr = some p := by rw [hcs] at hp2; exact hp2
    subst hpr
    have htk : a.config.token = none := by
      rw [hcs]
      cases htk : tk with
      | none => rfl
      | some t => exact absurd ⟨by simp [htk], by simp⟩ h10
    have hne : p ≠ "" := by
      intro hpeq; subst hpeq; simp [profileOk, identCharsetOk] at h5
    unfold ActiveEnvironment.get_credentials
    rw [htk, hp2]
    simp [optTruthy, hne]
  · unfold get_active_credentials
    rw [hs]

/-- C6 witness: a concrete token-authenticated active environment. -/
theorem credential_broker_spec_witness :
    get_active_credentials
      { configuration := none,
        active := some { name := "dev",
                         config := { name := "dev", host := "example.com",
                                     token := some "dapi123", profile := none,
                                     http_path := "/sql/1.0/warehouses/abc",
                                     description := none, tags := [] },
                         activated_at := 0 } }
      = .ok { host := "example.com", http_path := "/sql/1.0/warehouses/abc",
              token := some "dapi123", profile := none } := by
  have h := credential_broker_spec
    { name := "dev",
      config := { name := "dev", host := "example.com", token := some "dapi123",
                  profile := none, http_path := "/sql/1.0/warehouses/abc",
                  description := none, tags := [] },
      activated_at := 0 }
    { configuration := none,
      active := some { name := "dev",
                       config := { name := "dev", host := "example.com",
                                   token := some "dapi123", profile := none,
                                   http_path := "/sql/1.0/warehouses/abc",
                                   description := none, tags := [] },
                       activated_at := 0 } }
    ⟨"dev", "example.com", some "dapi123", none, "/sql/1.0/warehouses/abc",
      none, none, rfl⟩
    rfl
  rw [h.2.2.2.2, h.2.2.1 "dapi123" rfl]

/-! ## C1: switch_to_environment followed by get_active_environment_name -/

theorem get_active_environment_name_eq (s : ManagerState) :
    get_active_environment_name s = s.active.map ActiveEnvironment.name := by
  unfold get_active_environment_name
  cases s.active <;> rfl

theorem switchMsg_contains_host (name : String) (env : EnvironmentConfig) :
    strContains env.host (switchSuccessMessage name env) := by
  unfold switchSuccessMessage
  exact strContains_extend (strContains_extend (strContains_extend (strContains_extend
    (strContains_last _ env.host) _) _) _) _

theorem switchMsg_contains_description (name : String) (env : EnvironmentConfig)
    (d : String) (hd : env.description = some d) (hne : d ≠ "") :
    strContains d (switchSuccessMessage name env) := by
  have hpy : pyOr env.description "N/A" = d := by simp [pyOr, hd, hne]
  unfold switchSuccessMessage
  rw [hpy]
  exact strContains_extend (strContains_extend (strContains_last _ d) _) _

theorem switchMsg_contains_tag (name : String) (env : EnvironmentConfig)
    (t : String) (ht : t ∈ env.tags) :
    strContains t (switchSuccessMessage name env) := by
  have hempty : env.tags.isEmpty = false := by
    cases henv : env.tags with
    | nil => rw [henv] at ht; cases ht
    | cons a l => rfl
  unfold switchSuccessMessage
  simp only [hempty, Bool.false_eq_true, if_false]
  exact strContains_skip _ (strContains_joinComma ht)

/-- C1: with a loaded configuration, `switch_to_environment(name)` followed by
`get_active_environment_name()` yields `name` iff `name` was a key of the
environment map (given the reachability invariant that any active
environment's name is a key); on a missing key the state — in particular the
previously active environment — is unchanged and the error message contains
every known environment name; on success the active environment becomes the
entry for `name` and the confirmation message contains the environment's
host, description and tags. -/
theorem switch_then_get_active_name (s : ManagerState) (cfg : EnvironmentsConfiguration)
    (name : String) (now : Nat)
    (hc : s.configuration = some cfg)
    (hinv : ∀ a, s.active = some a → (cfg.environments.lookup a.name).isSome) :
    ((get_active_environment_name (switch_to_environment s name now).1 = some name)
      ↔ (cfg.environments.lookup name).isSome) ∧
    (cfg.environments.lookup name = none →
      (switch_to_environment s name now).1 = s ∧
      ∃ msg, (switch_to_environment s name now).2 = .error msg ∧
        ∀ k ∈ cfg.environments.map Prod.fst, strContains k msg) ∧
    (∀ env, cfg.environments.lookup name = some env →
      (switch_to_environment s name now).1.active
        = some { name := name, config := env, activated_at := now } ∧
      (switch_to_environment s name now).2 = .ok (switchSuccessMessage name env) ∧
      strContains env.host (switchSuccessMessage name env) ∧
      (∀ d, env.description = some d → d ≠ "" →
        strContains d (switchSuccessMessage name env)) ∧
      (∀ t ∈ env.tags, strContains t (switchSuccessMessage name env))) := by
  unfold switch_to_environment
  rw [hc]
  simp only []
  cases hl : cfg.environments.lookup name with
  | none =>
    refine ⟨?_, fun _ => ⟨rfl, _, rfl, ?_⟩, ?_⟩
    · rw [get_active_environment_name_eq]
      constructor
      · intro hname
        exfalso
        cases ha : s.active with
        | none => rw [ha] at hname; cases hname
        | some a =>
          rw [ha] at hname
          injection hname with hname
          have := hinv a ha
          rw [hname, hl] at this
          cases this
      · intro habs
        simp at habs
    · intro k hk
      exact strContains_skip _ (strContains_joinComma hk)
    · intro env habs
      exact Option.noConfusion habs
  | some env =>
    refine ⟨?_, ?_, ?_⟩
    · rw [get_active_environment_name_eq]
      simp
    · intro habs
      exact Option.noConfusion habs
    · intro env' henv
      injection henv with he
      subst he
      exact ⟨rfl, rfl, switchMsg_contains_host name env,
             fun d hd hne => switchMsg_contains_description name env d hd hne,
             fun t ht => switchMsg_contains_tag name env t ht⟩

/-- A concrete validated environment used by witnesses. -/
def devConfig : EnvironmentConfig :=
  { name := "dev", host := "example.com", token := some "dapi123",
    profile := none, http_path := "/sql/1.0/warehouses/abc",
    description := none, tags := [] }

/-- A concrete configuration whose sole environment is `dev`. -/
def devOnlyConfiguration : EnvironmentsConfiguration :=
  { default := "dev", environments := [("dev", devConfig)] }

/-- C1 witness: switching to `dev` on a loaded, inactive manager makes
`get_active_environment_name` return `dev`. -/
theorem switch_then_get_active_name_witness :
    (get_active_environment_name
      (switch_to_environment
        { configuration := some devOnlyConfiguration, active := none } "dev" 1).1
      = some "dev")
    ↔ (devOnlyConfiguration.environments.lookup "dev").isSome :=
  (switch_then_get_active_name
    { configuration := some devOnlyConfiguration, active := none }
    devOnlyConfiguration "dev" 1 rfl (fun _ h => Option.noConfusion h)).1

/-! ## C3: reload success and name continuity -/

/-- C3: on a successful reload with active environment `a`, if `a.name`
survives in the new configuration the active environment keeps its name and
is re-pointed at the new entry with a fresh `activated_at`; if `a.name` is
gone, the new configuration's default becomes active. -/
theorem reload_success_name_continuity (s : ManagerState)
    (cfg : EnvironmentsConfiguration) (a : ActiveEnvironment) (now : Nat)
    (ha : s.active = some a)
    (hd : (cfg.environments.lookup cfg.default).isSome) :
    (∀ c, cfg.environments.lookup a.name = some c →
      (reload_configuration s (.ok cfg) now).configuration = some cfg ∧
      (reload_configuration s (.ok cfg) now).active
        = some { name := a.name, config := c, activated_at := now } ∧
      get_active_environment_name (reload_configuration s (.ok cfg) now)
        = some a.name) ∧
    (cfg.environments.lookup a.name = none →
      (reload_configuration s (.ok cfg) now).configuration = some cfg ∧
      get_active_environment_name (reload_configuration s (.ok cfg) now)
        = some cfg.default) := by
  obtain ⟨conf, act⟩ := s
  simp only at ha
  subst ha
  simp only [reload_configuration]
  constructor
  · intro c hcl
    rw [hcl]
    exact ⟨rfl, rfl, rfl⟩
  · intro hnone
    rw [hnone]
    obtain ⟨dc, hdc⟩ := Option.isSome_iff_exists.1 hd
    rw [hdc]
    exact ⟨rfl, rfl⟩

/-- C3 witness: reloading while `dev` is active and still present keeps the
name `dev` active. -/
theorem reload_success_name_continuity_witness :
    get_active_environment_name
      (reload_configuration
        { configuration := some devOnlyConfiguration,
          active := some { name := "dev", config := devConfig, activated_at := 0 } }
        (.ok devOnlyConfiguration) 5)
      = some "dev" :=
  ((reload_success_name_continuity
      { configuration := some devOnlyConfiguration,
        active := some { name := "dev", config := devConfig, activated_at := 0 } }
      devOnlyConfiguration
      { name := "dev", config := devConfig, activated_at := 0 } 5 rfl rfl).1
    devConfig rfl).2.2

/-! ## C8/C9/C10: the loader -/

theorem except_bind_ok {α β : Type} (x : α) (f : α → Except String β) :
    (Except.ok x >>= f) = f x := rfl

theorem except_bind_error {α β : Type} (e : String) (f : α → Except String β) :
    ((Except.error e : Except String α) >>= f) = .error e := rfl

/-- The loader injects the map key as the entry's name, so a successful
construction from raw data carries the key as its `name`. -/
theorem mkEnvironmentConfigOfData_ok_name {k : String} {d : EnvData}
    {c : EnvironmentConfig}
    (h : mkEnvironmentConfigOfData { d with name := some k } = .ok c) :
    c.name = k := by
  obtain ⟨dn, dh, dt, dpr, dhp, dd, dtg⟩ := d
  cases dh with
  | none => exact Except.noConfusion h
  | some hst =>
    cases dhp with
    | none => exact Except.noConfusion h
    | some pth =>
      obtain ⟨hcs, -⟩ := mkEnvironmentConfig_ok_inv h
      rw [hcs]

/-- The per-entry loop of `load_from_yaml` preserves the key list and forces
name = key on every produced entry. -/
theorem buildEnvConfigs_ok_inv : ∀ {l : List (String × EnvData)}
    {cs : List (String × EnvironmentConfig)},
    buildEnvConfigs l = .ok cs →
    cs.map Prod.fst = l.map Prod.fst ∧ ∀ p ∈ cs, p.2.name = p.1
  | [], cs, h => by
    injection h with h
    subst h
    exact ⟨rfl, fun p hp => absurd hp (List.not_mem_nil p)⟩
  | (k, d) :: rest, cs, h => by
    simp only [buildEnvConfigs] at h
    cases hm : mkEnvironmentConfigOfData { d with name := some k } with
    | error e => rw [hm, except_bind_error] at h; exact Except.noConfusion h
    | ok c =>
      rw [hm, except_bind_ok] at h
      cases hb : buildEnvConfigs rest with
      | error e => rw [hb, except_bind_error] at h; exact Except.noConfusion h
      | ok cs' =>
        rw [hb, except_bind_ok] at h
        injection h with h
        subst h
        obtain ⟨hkeys, hnames⟩ := buildEnvConfigs_ok_inv hb
        refine ⟨by simp [hkeys], ?_⟩
        intro p hp
        cases hp with
        | head => exact mkEnvironmentConfigOfData_ok_name hm
        | tail _ hmem => exact hnames p hmem

/-- C9: a successful structured load yields a configuration whose key list
equals the source's environment-name list, whose every entry has
`name = key` (the loader injects the key), and whose `default` is a present
key; and direct constructions violating the key-equals-name or
default-present invariant are rejected. -/
theorem yaml_roundtrip_spec :
    (∀ y cfg, load_from_yaml (some y) = .ok cfg →
      cfg.environments.map Prod.fst = (y.environments.getD []).map Prod.fst ∧
      (∀ p ∈ cfg.environments, p.2.name = p.1) ∧
      (cfg.environments.lookup cfg.default).isSome) ∧
    (∀ dflt envs, (∃ p ∈ envs, p.2.name ≠ p.1) →
      ∃ e, mkEnvironmentsConfiguration dflt envs = .error e) ∧
    (∀ d envs, (envs.lookup d).isNone →
      ∃ e, mkEnvironmentsConfiguration (some d) envs = .error e) := by
  refine ⟨?_, ?_, ?_⟩
  · intro y cfg h
    simp only [load_from_yaml] at h
    cases hb : buildEnvConfigs (y.environments.getD []) with
    | error e => rw [hb, except_bind_error] at h; exact Except.noConfusion h
    | ok cs =>
      rw [hb, except_bind_ok] at h
      obtain ⟨-, henv, hdef, hnames, -⟩ := mkEnvironmentsConfiguration_ok_inv h
      obtain ⟨hkeys, -⟩ := buildEnvConfigs_ok_inv hb
      rw [henv]
      exact ⟨hkeys, hnames, hdef⟩
  · intro dflt envs hbad
    obtain ⟨p, hp, hne⟩ := hbad
    cases dflt with
    | none => exact ⟨_, rfl⟩
    | some d =>
      have hempty : envs.isEmpty = false := by
        cases henvs : envs with
        | nil => rw [henvs] at hp; cases hp
        | cons x xs => rfl
      have hany : envs.any (fun p => p.2.name ≠ p.1) = true :=
        List.any_eq_true.2 ⟨p, hp, by simpa using hne⟩
      refine ⟨"Environment key does not match environment name", ?_⟩
      simp only [mkEnvironmentsConfiguration]
      rw [if_neg (by rw [hempty]; simp), if_pos hany]
  · intro d envs hlnone
    cases envs with
    | nil => exact ⟨_, rfl⟩
    | cons x xs =>
      cases hany : (x :: xs).any (fun p => p.2.name ≠ p.1) with
      | true =>
        refine ⟨"Environment key does not match environment name", ?_⟩
        simp only [mkEnvironmentsConfiguration]
        rw [if_neg (by simp), if_pos hany]
      | false =>
        refine ⟨"Default environment \"" ++ d ++ "\" not found. Available environments: "
          ++ joinComma ((x :: xs).map Prod.fst), ?_⟩
        simp only [mkEnvironmentsConfiguration]
        rw [if_neg (by simp), if_neg (by rw [hany]; simp), if_pos hlnone]

/-- C9 witness: a default that is not a key is rejected. -/
theorem yaml_roundtrip_spec_witness :
    ∃ e, mkEnvironmentsConfiguration (some "prod") [("dev", devConfig)] = .error e :=
  yaml_roundtrip_spec.2.2 "prod" [("dev", devConfig)] rfl

/-- C8: legacy loading reports every missing-or-empty required variable in a
single validation error (the reported set is exactly the non-truthy ones, in
fixed order, and each reported name occurs in the message); a successful
legacy load yields the single environment `"default"`, default `"default"`,
with a description recording the migration from the legacy source. -/
theorem legacy_load_spec (env_file : String)
    (fileVars ambient : List (String × String)) :
    (legacyMissingVars fileVars ambient ≠ [] →
      ∃ msg, load_from_env env_file fileVars ambient = .error msg ∧
        ∀ v ∈ legacyMissingVars fileVars ambient, strContains v msg) ∧
    (("DATABRICKS_HOST" ∈ legacyMissingVars fileVars ambient ↔
        optTruthy (getenvAfterDotenv ambient fileVars "DATABRICKS_HOST") = false) ∧
     ("DATABRICKS_TOKEN" ∈ legacyMissingVars fileVars ambient ↔
        optTruthy (getenvAfterDotenv ambient fileVars "DATABRICKS_TOKEN") = false) ∧
     ("DATABRICKS_HTTP_PATH" ∈ legacyMissingVars fileVars ambient ↔
        optTruthy (getenvAfterDotenv ambient fileVars "DATABRICKS_HTTP_PATH") = false)) ∧
    (∀ cfg, load_from_env env_file fileVars ambient = .ok cfg →
      cfg.default = "default" ∧
      cfg.environments.map Prod.fst = ["default"] ∧
      ∀ p ∈ cfg.environments, p.2.name = "default" ∧
        p.2.description = some ("Migrated from " ++ env_file)) := by
  refine ⟨?_, ?_, ?_⟩
  · intro hne
    have hguard : (!(optTruthy (getenvAfterDotenv ambient fileVars "DATABRICKS_HOST")
        && optTruthy (getenvAfterDotenv ambient fileVars "DATABRICKS_TOKEN")
        && optTruthy (getenvAfterDotenv ambient fileVars "DATABRICKS_HTTP_PATH"))) = true := by
      cases hH : optTruthy (getenvAfterDotenv ambient fileVars "DATABRICKS_HOST") <;>
        cases hT : optTruthy (getenvAfterDotenv ambient fileVars "DATABRICKS_TOKEN") <;>
          cases hP : optTruthy (getenvAfterDotenv ambient fileVars "DATABRICKS_HTTP_PATH") <;>
            simp_all [legacyMissingVars]
    refine ⟨"Missing required environment variables in " ++ env_file ++ ": "
      ++ joinComma (legacyMissingVars fileVars ambient), ?_,
      fun v hv => strContains_skip _ (strContains_joinComma hv)⟩
    simp only [load_from_env]
    rw [if_pos hguard]
  · refine ⟨?_, ?_, ?_⟩ <;>
      (cases hH : optTruthy (getenvAfterDotenv ambient fileVars "DATABRICKS_HOST") <;>
        cases hT : optTruthy (getenvAfterDotenv ambient fileVars "DATABRICKS_TOKEN") <;>
          cases hP : optTruthy (getenvAfterDotenv ambient fileVars "DATABRICKS_HTTP_PATH") <;>
            simp_all [legacyMissingVars])
  · intro cfg h
    simp only [load_from_env] at h
    split_ifs at h with hguard
    cases hmk : mkEnvironmentConfig "default"
        ((getenvAfterDotenv ambient fileVars "DATABRICKS_HOST").getD "")
        (some ((getenvAfterDotenv ambient fileVars "DATABRICKS_TOKEN").getD "")) none
        ((getenvAfterDotenv ambient fileVars "DATABRICKS_HTTP_PATH").getD "")
        (some ("Migrated from " ++ env_file)) none with
    | error e => rw [hmk, except_bind_error] at h; exact Except.noConfusion h
    | ok env =>
      rw [hmk, except_bind_ok] at h
      obtain ⟨hdflt, henvs, -, -, -⟩ := mkEnvironmentsConfiguration_ok_inv h
      obtain ⟨hcs, -⟩ := mkEnvironmentConfig_ok_inv hmk
      injection hdflt with hdflt
      refine ⟨hdflt.symm, by rw [henvs]; rfl, ?_⟩
      intro p hp
      rw [henvs] at hp
      cases hp with
      | head => rw [hcs]; exact ⟨rfl, rfl⟩
      | tail _ hmem => exact absurd hmem (List.not_mem_nil p)

/-- C8 witness: a legacy source with HOST and HTTP_PATH but no TOKEN fails
with a message naming the missing TOKEN variable. -/
theorem legacy_load_spec_witness :
    ∃ msg, load_from_env ".env"
        [("DATABRICKS_HOST", "h"), ("DATABRICKS_HTTP_PATH", "/sql/1.0/warehouses/w")] []
      = .error msg ∧
      ∀ v ∈ legacyMissingVars
        [("DATABRICKS_HOST", "h"), ("DATABRICKS_HTTP_PATH", "/sql/1.0/warehouses/w")] [],
        strContains v msg :=
  (legacy_load_spec ".env"
    [("DATABRICKS_HOST", "h"), ("DATABRICKS_HTTP_PATH", "/sql/1.0/warehouses/w")] []).1
    (by decide)

/-- C10: legacy loading reads the process environment after a no-override
merge of the file's variables, so the ambient environment can change the
outcome for the same file: an ambient-set variable absent from the file is
treated as present (first conjunct), and the same legacy file loads
differently under two ambient environments (second conjunct: without an
ambient token the load fails, with one it succeeds). -/
theorem legacy_ambient_env_dependence :
    (∀ (fileVars ambient : List (String × String)) (t : String),
      fileVars.lookup "DATABRICKS_TOKEN" = none →
      ambient.lookup "DATABRICKS_TOKEN" = some t → t ≠ "" →
      "DATABRICKS_TOKEN" ∉ legacyMissingVars fileVars ambient) ∧
    load_from_env ".env"
      [("DATABRICKS_HOST", "h"), ("DATABRICKS_HTTP_PATH", "/sql/1.0/warehouses/w")] []
      ≠ load_from_env ".env"
        [("DATABRICKS_HOST", "h"), ("DATABRICKS_HTTP_PATH", "/sql/1.0/warehouses/w")]
        [("DATABRICKS_TOKEN", "dapi1")] := by
  constructor
  · intro fileVars ambient t hfile hamb hne hmem
    have htr : optTruthy (getenvAfterDotenv ambient fileVars "DATABRICKS_TOKEN") = true := by
      unfold getenvAfterDotenv
      rw [hamb]
      simp [optTruthy, hne]
    unfold legacyMissingVars at hmem
    rw [htr] at hmem
    split_ifs at hmem <;> simp_all
  · intro h
    have h2 := congrArg Except.isOk h
    rw [show (load_from_env ".env"
        [("DATABRICKS_HOST", "h"), ("DATABRICKS_HTTP_PATH", "/sql/1.0/warehouses/w")]
        []).isOk = false from rfl,
      show (load_from_env ".env"
        [("DATABRICKS_HOST", "h"), ("DATABRICKS_HTTP_PATH", "/sql/1.0/warehouses/w")]
        [("DATABRICKS_TOKEN", "dapi1")]).isOk = true from rfl] at h2
    exact Bool.noConfusion h2

/-- C10 witness: with the token only in the ambient process environment, the
TOKEN variable is not reported missing. -/
theorem legacy_ambient_env_dependence_witness :
    "DATABRICKS_TOKEN" ∉ legacyMissingVars [] [("DATABRICKS_TOKEN", "dapi1")] :=
  legacy_ambient_env_dependence.1 [] [("DATABRICKS_TOKEN", "dapi1")] "dapi1"
    rfl rfl (by decide)
